import Mathlib

/-!
Shallow embedding of `src/educhain_setup.py` (class `EduChainSetup`,
class `MockEduChain`, and the module-level helpers) and proofs about
the behaviour of its content-generation pipeline.

Modelling conventions:
* Python dictionaries that are built with literal keys and serialized to
  JSON are modelled by the inductive type `Json` below; a `Json.obj`
  keeps its fields in insertion order, exactly as a Python `dict` does.
* `datetime.now().isoformat()` is an external input; every function that
  stamps a `generated_at` field takes the current timestamp as an
  explicit `now : String` argument.
* Python `int` is modelled by `Int`; the slice `l[:k]` is modelled by
  `pySliceUpTo`, which implements Python's semantics for negative upper
  bounds.
* A call into the educhain engine (which may raise) is modelled by an
  `EngineClient` whose methods return `Except String Json`; the
  `try/except` blocks of the source become a `match` on that result.
-/

namespace EduchainSetup

/-- JSON-serializable values as produced by the script: strings, integers,
arrays, and objects with insertion-ordered fields. -/
inductive Json where
  | str (s : String)
  | int (n : Int)
  | arr (xs : List Json)
  | obj (fs : List (String × Json))
deriving Repr

/-- Lookup of a key in an insertion-ordered field list (Python `d[k]` /
`d.get(k)` for the dicts built by the script, whose keys are unique). -/
def lookupField : List (String × Json) → String → Option Json
  | [], _ => none
  | (k', v) :: fs, k => if k' = k then some v else lookupField fs k

/-- Field access on a JSON value: `some` on an object that has the key,
`none` otherwise. -/
def Json.getField : Json → String → Option Json
  | .obj fs, k => lookupField fs k
  | _, _ => none

/-- Python's slice `l[:k]` for an `int` upper bound `k`: a negative `k`
counts from the end (clamped at 0), a non-negative `k` truncates. -/
def pySliceUpTo {α : Type} (l : List α) (k : Int) : List α :=
  l.take (if k < 0 then ((l.length : Int) + k).toNat else k.toNat)

/-- The hardcoded sample questions of `_generate_fallback_mcqs`
(`python_questions`, src/educhain_setup.py lines 147-203), verbatim. -/
def python_questions : List Json :=
  [ .obj
      [ ("question", .str "What is the correct way to create a list in Python?"),
        ("options", .arr
          [ .str "my_list = []",
            .str "my_list = ()",
            .str "my_list = \x7b\x7d",
            .str "my_list = <>" ]),
        ("correct_answer", .str "A"),
        ("explanation", .str "Square brackets [] are used to create lists in Python.") ],
    .obj
      [ ("question", .str "Which keyword is used to define a function in Python?"),
        ("options", .arr
          [ .str "function",
            .str "def",
            .str "define",
            .str "func" ]),
        ("correct_answer", .str "B"),
        ("explanation", .str "The \x27def\x27 keyword is used to define functions in Python.") ],
    .obj
      [ ("question", .str "What does the \x27len()\x27 function do in Python?"),
        ("options", .arr
          [ .str "Returns the length of an object",
            .str "Returns the last element",
            .str "Returns the first element",
            .str "Returns the type of object" ]),
        ("correct_answer", .str "A"),
        ("explanation", .str "The len() function returns the number of items in an object.") ],
    .obj
      [ ("question", .str "Which operator is used for floor division in Python?"),
        ("options", .arr
          [ .str "/",
            .str "//",
            .str "%",
            .str "**" ]),
        ("correct_answer", .str "B"),
        ("explanation", .str "The \x27//\x27 operator performs floor division in Python.") ],
    .obj
      [ ("question", .str "What is the correct way to comment a single line in Python?"),
        ("options", .arr
          [ .str "// This is a comment",
            .str "/* This is a comment */",
            .str "# This is a comment",
            .str "<!-- This is a comment -->" ]),
        ("correct_answer", .str "C"),
        ("explanation", .str "The \x27#\x27 symbol is used for single-line comments in Python.") ] ]

/-- Embedding of `EduChainSetup._generate_fallback_mcqs(topic, num_questions)`
(src/educhain_setup.py lines 140-216).  `now` is the value of
`datetime.now().isoformat()` at the moment of the call. -/
def _generate_fallback_mcqs (now topic : String) (num_questions : Int) : Json :=
  let selected_questions :=
    pySliceUpTo python_questions (min num_questions (python_questions.length : Int))
  .obj
    [ ("content_type", .str "multiple_choice_questions"),
      ("topic", .str topic),
      ("num_questions", .int (selected_questions.length : Int)),
      ("difficulty", .str "medium"),
      ("generated_at", .str now),
      ("questions", .arr selected_questions),
      ("note", .str "Generated using fallback content due to API limitations") ]

/-- Embedding of `EduChainSetup._generate_fallback_lesson_plan(subject,
duration, grade_level)` (src/educhain_setup.py lines 218-285).  Python
f-strings become string concatenation. -/
def _generate_fallback_lesson_plan (now subject duration grade_level : String) : Json :=
  let lesson_plan : Json := .obj
    [ ("title", .str ("Introduction to " ++ subject)),
      ("overview", .str ("This lesson introduces students to fundamental concepts in " ++ subject ++ ".")),
      ("learning_objectives", .arr
        [ .str ("Understand basic concepts of " ++ subject),
          .str ("Apply " ++ subject ++ " principles in practical scenarios"),
          .str "Develop problem-solving skills",
          .str "Build foundation for advanced topics" ]),
      ("materials_needed", .arr
        [ .str "Computer with Python installed",
          .str "Text editor or IDE",
          .str "Practice exercises",
          .str "Reference materials" ]),
      ("lesson_structure", .obj
        [ ("introduction", .obj
            [ ("duration", .str "10 minutes"),
              ("activities", .arr
                [ .str "Review previous lesson",
                  .str ("Introduce " ++ subject ++ " concepts"),
                  .str "Set learning expectations" ]) ]),
          ("main_content", .obj
            [ ("duration", .str "25 minutes"),
              ("activities", .arr
                [ .str ("Explain core " ++ subject ++ " principles"),
                  .str "Demonstrate with examples",
                  .str "Hands-on practice",
                  .str "Interactive exercises" ]) ]),
          ("conclusion", .obj
            [ ("duration", .str "10 minutes"),
              ("activities", .arr
                [ .str "Summarize key concepts",
                  .str "Address questions",
                  .str "Assign practice work",
                  .str "Preview next lesson" ]) ]) ]),
      ("assessment", .obj
        [ ("formative", .str "Questions and discussions during lesson"),
          ("summative", .str "Practice exercises and quiz"),
          ("homework", .str ("Complete " ++ subject ++ " practice problems")) ]),
      ("differentiation", .obj
        [ ("for_beginners", .str "Provide additional examples and support"),
          ("for_advanced", .str "Offer extension activities and challenges") ]) ]
  .obj
    [ ("content_type", .str "lesson_plan"),
      ("subject", .str subject),
      ("duration", .str duration),
      ("grade_level", .str grade_level),
      ("generated_at", .str now),
      ("lesson_plan", lesson_plan),
      ("note", .str "Generated using fallback content due to API limitations") ]

/-- The generation interface the public methods call through
(`self.educhain.qna_engine.generate_questions(...)` and
`self.educhain.content_engine.generate_lesson_plan(...)`).  Each method
models the complete attempt — attribute lookup plus call — and returns
`Except.error` when the Python expression would raise any exception. -/
structure EngineClient where
  generate_questions : String → Int → String → Except String Json
  content_generate_lesson_plan : String → String → String → List String → Except String Json

/-- Embedding of `MockEduChain` (src/educhain_setup.py lines 372-381) as
seen through the generation interface: the stub has no `qna_engine` /
`content_engine` attribute, so the attribute access itself raises
(`AttributeError`), and its own `generate_mcq` / `generate_lesson_plan`
methods do nothing but raise; every generation attempt through it fails. -/
def MockEduChain : EngineClient where
  generate_questions := fun _ _ _ => .error "Mock EduChain - using fallback content"
  content_generate_lesson_plan := fun _ _ _ _ => .error "Mock EduChain - using fallback content"

/-- Embedding of `EduChainSetup.generate_mcq_content(topic, num_questions)`
(src/educhain_setup.py lines 57-96): try the engine, and on any exception
return the fallback MCQs. -/
def generate_mcq_content (client : EngineClient) (now topic : String)
    (num_questions : Int) : Json :=
  match client.generate_questions topic num_questions "medium" with
  | .ok mcqs =>
      .obj
        [ ("content_type", .str "multiple_choice_questions"),
          ("topic", .str topic),
          ("num_questions", .int num_questions),
          ("difficulty", .str "medium"),
          ("generated_at", .str now),
          ("questions", mcqs) ]
  | .error _ => _generate_fallback_mcqs now topic num_questions

/-- Embedding of `EduChainSetup.generate_lesson_plan(subject, duration,
grade_level)` (src/educhain_setup.py lines 98-138): try the engine, and on
any exception return the fallback lesson plan. -/
def generate_lesson_plan (client : EngineClient) (now subject duration grade_level : String) : Json :=
  match client.content_generate_lesson_plan subject duration grade_level
      ["Understanding the process", "Identifying key components"] with
  | .ok lesson_plan =>
      .obj
        [ ("content_type", .str "lesson_plan"),
          ("subject", .str subject),
          ("duration", .str duration),
          ("grade_level", .str grade_level),
          ("generated_at", .str now),
          ("lesson_plan", lesson_plan) ]
  | .error _ => _generate_fallback_lesson_plan now subject duration grade_level

/-- Position a correct-answer letter refers to: `"A"` is option 0, `"B"`
option 1, `"C"` option 2, `"D"` option 3. -/
def letterIndex (s : String) : Option Nat :=
  if s = "A" then some 0
  else if s = "B" then some 1
  else if s = "C" then some 2
  else if s = "D" then some 3
  else none

/-- MCQItem invariant: the item is an object whose `correct_answer` is one
of the letters A-D and indexes an option present in its `options` list. -/
def mcqItemOk (q : Json) : Bool :=
  match q.getField "correct_answer", q.getField "options" with
  | some (.str a), some (.arr opts) =>
      match letterIndex a with
      | some i => decide (i < opts.length)
      | none => false
  | _, _ => false

/-- Removal of one key from an object (all other fields kept in order);
identity on non-objects.  Used to speak about an envelope "apart from its
`generated_at` field". -/
def Json.eraseField : Json → String → Json
  | .obj fs, k => .obj (fs.filter (fun p => p.1 != k))
  | v, _ => v

mutual
/-- Structural size of a JSON value, used as fuel for the parser. -/
def Json.size : Json → Nat
  | .str _ => 1
  | .int _ => 1
  | .arr xs => 1 + Json.sizeList xs
  | .obj fs => 1 + Json.sizeObj fs
/-- Structural size of a JSON array element list. -/
def Json.sizeList : List Json → Nat
  | [] => 1
  | x :: xs => 1 + Json.size x + Json.sizeList xs
/-- Structural size of a JSON object field list. -/
def Json.sizeObj : List (String × Json) → Nat
  | [] => 1
  | f :: fs => 1 + Json.size f.2 + Json.sizeObj fs
end

/-- The opening curly brace character. -/
def lbrace : Char := Char.ofNat 123

/-- The closing curly brace character. -/
def rbrace : Char := Char.ofNat 125

/-- Lowercase hexadecimal digit character for a value below 16, as used by
Python's `\u%04x` escape formatting. -/
def hexDigitChar (n : Nat) : Char :=
  if n < 10 then Char.ofNat (48 + n) else Char.ofNat (87 + n)

/-- Escaping of one character by `json.dump(..., ensure_ascii=False)`:
the quote, the backslash, and control characters below 0x20 are escaped
(with short forms for backspace, tab, newline, form feed, carriage
return); every other character is emitted as itself. -/
def escapeChar (c : Char) : List Char :=
  if c = '"' then ['\\', '"']
  else if c = '\\' then ['\\', '\\']
  else if c.toNat = 8 then ['\\', 'b']
  else if c.toNat = 9 then ['\\', 't']
  else if c.toNat = 10 then ['\\', 'n']
  else if c.toNat = 12 then ['\\', 'f']
  else if c.toNat = 13 then ['\\', 'r']
  else if c.toNat < 32 then
    ['\\', 'u', '0', '0', hexDigitChar (c.toNat / 16), hexDigitChar (c.toNat % 16)]
  else [c]

/-- JSON escaping of a character sequence. -/
def escapeChars : List Char → List Char
  | [] => []
  | c :: cs => escapeChar c ++ escapeChars cs

/-- Decimal digits of a natural number, most significant first, prepended
to an accumulator. -/
def natDigitsAux (n : Nat) (acc : List Char) : List Char :=
  if h : n < 10 then Char.ofNat (48 + n) :: acc
  else natDigitsAux (n / 10) (Char.ofNat (48 + n % 10) :: acc)
termination_by n
decreasing_by exact Nat.div_lt_self (by omega) (by omega)

/-- Decimal digits of a natural number, most significant first. -/
def natDigits (n : Nat) : List Char := natDigitsAux n []

/-- Decimal rendering of a Python `int`. -/
def intChars (n : Int) : List Char :=
  if n < 0 then '-' :: natDigits (-n).toNat else natDigits n.toNat

/-- Two-space indentation at nesting depth `ind`, as produced by
`json.dump(..., indent=2)`. -/
def indentChars (ind : Nat) : List Char := List.replicate (2 * ind) ' '

mutual
/-- Serializer matching `json.dump(content, f, indent=2, ensure_ascii=False)`
(src/educhain_setup.py line 291): `printAt ind v` renders `v` whose own
content sits at nesting depth `ind`. -/
def printAt : Nat → Json → List Char
  | _, .str s => '"' :: (escapeChars s.data ++ ['"'])
  | _, .int n => intChars n
  | _, .arr [] => ['[', ']']
  | ind, .arr (x :: xs) =>
      '[' :: '\n' :: (printItems (ind + 1) x xs ++ '\n' :: (indentChars ind ++ [']']))
  | _, .obj [] => [lbrace, rbrace]
  | ind, .obj (f :: fs) =>
      lbrace :: '\n' :: (printFields (ind + 1) f fs ++ '\n' :: (indentChars ind ++ [rbrace]))
termination_by _ v => sizeOf v
decreasing_by all_goals (simp_wf <;> omega)
/-- Serializer for a nonempty run of array items: each item on its own
indented line, separated by commas. -/
def printItems : Nat → Json → List Json → List Char
  | ind, x, [] => indentChars ind ++ printAt ind x
  | ind, x, y :: ys =>
      indentChars ind ++ printAt ind x ++ ',' :: '\n' :: printItems ind y ys
termination_by _ x xs => 1 + sizeOf x + sizeOf xs
decreasing_by all_goals (simp_wf <;> omega)
/-- Serializer for a nonempty run of object fields: each `"key": value`
on its own indented line, separated by commas. -/
def printFields : Nat → (String × Json) → List (String × Json) → List Char
  | ind, (k, v), [] =>
      indentChars ind ++ ('"' :: (escapeChars k.data ++ '"' :: ':' :: ' ' :: printAt ind v))
  | ind, (k, v), g :: gs =>
      indentChars ind ++ ('"' :: (escapeChars k.data ++ '"' :: ':' :: ' ' :: printAt ind v)) ++
        ',' :: '\n' :: printFields ind g gs
termination_by _ f fs => 1 + sizeOf f + sizeOf fs
decreasing_by all_goals (simp_wf <;> omega)
end

/-- Rendering of an envelope exactly as `json.dump(content, f, indent=2,
ensure_ascii=False)` writes it. -/
def json_dumps (v : Json) : String := String.mk (printAt 0 v)

/-- Whitespace as skipped by the JSON grammar. -/
def isWsChar (c : Char) : Bool := c = ' ' || c = '\n' || c = '\t' || c = '\x0d'

/-- Drop leading JSON whitespace. -/
def skipWs (cs : List Char) : List Char := cs.dropWhile isWsChar

/-- Decimal digit test. -/
def isDigitChar (c : Char) : Bool := 48 ≤ c.toNat && c.toNat ≤ 57

/-- Numeric value of a decimal digit character. -/
def digitVal (c : Char) : Nat := c.toNat - 48

/-- Parse a maximal run of decimal digits into a natural number. -/
def parseNatChars (cs : List Char) : Option (Nat × List Char) :=
  if (cs.takeWhile isDigitChar).isEmpty then none
  else some ((cs.takeWhile isDigitChar).foldl (fun a c => 10 * a + digitVal c) 0,
             cs.dropWhile isDigitChar)

/-- Numeric value of a hexadecimal digit character, case-insensitive. -/
def hexVal (c : Char) : Option Nat :=
  if 48 ≤ c.toNat && c.toNat ≤ 57 then some (c.toNat - 48)
  else if 97 ≤ c.toNat && c.toNat ≤ 102 then some (c.toNat - 87)
  else if 65 ≤ c.toNat && c.toNat ≤ 70 then some (c.toNat - 55)
  else none

/-- Parse the body of a JSON string after its opening quote, returning the
decoded characters and the input after the closing quote.  Handles the
standard escapes `\" \\ \/ \b \f \n \r \t \uXXXX`. -/
def parseStringBody : List Char → Option (List Char × List Char)
  | [] => none
  | c :: cs =>
    if c = '"' then some ([], cs)
    else if c = '\\' then
      match cs with
      | [] => none
      | e :: cs' =>
        if e = '"' then (parseStringBody cs').map (fun p => ('"' :: p.1, p.2))
        else if e = '\\' then (parseStringBody cs').map (fun p => ('\\' :: p.1, p.2))
        else if e = '/' then (parseStringBody cs').map (fun p => ('/' :: p.1, p.2))
        else if e = 'b' then (parseStringBody cs').map (fun p => ('\x08' :: p.1, p.2))
        else if e = 'f' then (parseStringBody cs').map (fun p => ('\x0c' :: p.1, p.2))
        else if e = 'n' then (parseStringBody cs').map (fun p => ('\n' :: p.1, p.2))
        else if e = 'r' then (parseStringBody cs').map (fun p => ('\x0d' :: p.1, p.2))
        else if e = 't' then (parseStringBody cs').map (fun p => ('\t' :: p.1, p.2))
        else if e = 'u' then
          match cs' with
          | h1 :: h2 :: h3 :: h4 :: cs'' =>
            match hexVal h1, hexVal h2, hexVal h3, hexVal h4 with
            | some a, some b, some u, some d =>
                (parseStringBody cs'').map
                  (fun p => (Char.ofNat (((a * 16 + b) * 16 + u) * 16 + d) :: p.1, p.2))
            | _, _, _, _ => none
          | _ => none
        else none
    else (parseStringBody cs).map (fun p => (c :: p.1, p.2))

mutual
/-- Recursive-descent JSON reader for the values the script writes
(strings, integers, arrays, objects), i.e. `json.loads` restricted to the
grammar the envelopes use.  `fuel` bounds the recursion depth. -/
def parseValue : Nat → List Char → Option (Json × List Char)
  | 0, _ => none
  | fuel + 1, cs =>
    match skipWs cs with
    | [] => none
    | c :: cs' =>
      if c = '"' then
        (parseStringBody cs').map (fun p => (Json.str (String.mk p.1), p.2))
      else if c = '[' then
        match skipWs cs' with
        | [] => none
        | d :: rest =>
          if d = ']' then some (.arr [], rest)
          else (parseElems fuel (d :: rest)).map (fun p => (Json.arr p.1, p.2))
      else if c = lbrace then
        match skipWs cs' with
        | [] => none
        | d :: rest =>
          if d = rbrace then some (.obj [], rest)
          else (parseFields fuel (d :: rest)).map (fun p => (Json.obj p.1, p.2))
      else if c = '-' then
        (parseNatChars cs').map (fun p => (Json.int (-(p.1 : Int)), p.2))
      else if isDigitChar c then
        (parseNatChars (c :: cs')).map (fun p => (Json.int (p.1 : Int), p.2))
      else none
/-- Reader for the elements of a nonempty array, up to and including the
closing bracket. -/
def parseElems : Nat → List Char → Option (List Json × List Char)
  | 0, _ => none
  | fuel + 1, cs =>
    match parseValue fuel cs with
    | none => none
    | some (v, rest) =>
      match skipWs rest with
      | [] => none
      | c :: rest' =>
        if c = ',' then (parseElems fuel rest').map (fun p => (v :: p.1, p.2))
        else if c = ']' then some ([v], rest')
        else none
/-- Reader for the fields of a nonempty object, up to and including the
closing brace. -/
def parseFields : Nat → List Char → Option (List (String × Json) × List Char)
  | 0, _ => none
  | fuel + 1, cs =>
    match skipWs cs with
    | [] => none
    | c :: cs' =>
      if c = '"' then
        match parseStringBody cs' with
        | none => none
        | some (kcs, rest) =>
          match skipWs rest with
          | [] => none
          | d :: rest' =>
            if d = ':' then
              match parseValue fuel rest' with
              | none => none
              | some (v, rest2) =>
                match skipWs rest2 with
                | [] => none
                | e :: rest3 =>
                  if e = ',' then
                    (parseFields fuel rest3).map (fun p => ((String.mk kcs, v) :: p.1, p.2))
                  else if e = rbrace then some ([(String.mk kcs, v)], rest3)
                  else none
            else none
      else none
end

/-- Reading a whole document back, as `json.loads` does on the written
file: parse one value and require only whitespace to remain. -/
def json_loads (s : String) : Option Json :=
  match parseValue (s.data.length + 1) s.data with
  | some (v, rest) => if (skipWs rest).isEmpty then some v else none
  | none => none

/-- Embedding of `EduChainSetup.save_content_to_file(content, filename)`
(src/educhain_setup.py lines 287-294).  `fileWrite` models opening the
path and writing the serialized text; it returns `Except.error` when the
path is unwritable.  The source catches every exception, logs it, and
falls through, so the method itself always returns normally (`ok ()`). -/
def save_content_to_file (fileWrite : String → String → Except String Unit)
    (content : Json) (filename : String) : Except String Unit :=
  match fileWrite filename (json_dumps content) with
  | .ok _ => .ok ()
  | .error _ => .ok ()

/-- All characters of a list are JSON whitespace. -/
def allWs (l : List Char) : Prop := ∀ c ∈ l, isWsChar c = true

/-- The next character of the input cannot extend a decimal number. -/
def numGuard : List Char → Prop
  | [] => True
  | c :: _ => isDigitChar c = false

/-! Helper lemmas. -/

theorem length_pySliceUpTo {α : Type} (l : List α) (k : Int) :
    (pySliceUpTo l k).length =
      if k < 0 then ((l.length : Int) + k).toNat else min k.toNat l.length := by
  unfold pySliceUpTo
  split <;> simp [List.length_take] <;> omega

theorem python_questions_length : python_questions.length = 5 := rfl

theorem python_questions_all_ok : python_questions.all mcqItemOk = true := rfl

theorem mem_pySliceUpTo {α : Type} {l : List α} {k : Int} {a : α}
    (h : a ∈ pySliceUpTo l k) : a ∈ l := by
  unfold pySliceUpTo at h
  exact List.take_subset _ _ h

/-! Lemmas for the serializer / parser round trip. -/

theorem skipWs_cons_of_not_ws {c : Char} (h : isWsChar c = false) (l : List Char) :
    skipWs (c :: l) = c :: l := by
  simp [skipWs, List.dropWhile_cons, h]

theorem skipWs_append_of_allWs {l : List Char} (h : allWs l) (t : List Char) :
    skipWs (l ++ t) = skipWs t := by
  induction l with
  | nil => rfl
  | cons c cs ih =>
    have hc : isWsChar c = true := h c (List.mem_cons_self ..)
    simp only [List.cons_append, skipWs, List.dropWhile_cons, hc, if_true]
    exact ih (fun d hd => h d (List.mem_cons_of_mem c hd))

theorem allWs_indentChars (ind : Nat) : allWs (indentChars ind) := by
  intro c hc
  rw [indentChars] at hc
  rw [List.eq_of_mem_replicate hc]
  rfl

theorem allWs_nil : allWs [] := by
  intro c hc
  exact absurd hc (List.not_mem_nil c)

theorem ws_not_digit {c : Char} (h : isWsChar c = true) : isDigitChar c = false := by
  simp only [isWsChar, Bool.or_eq_true, decide_eq_true_eq] at h
  rcases h with ((rfl | rfl) | rfl) | rfl <;> rfl

theorem numGuard_ws_cons {ws : List Char} (h : allWs ws) {c : Char}
    (hc : isDigitChar c = false) (rest : List Char) : numGuard (ws ++ c :: rest) := by
  cases ws with
  | nil => exact hc
  | cons w ws' => exact ws_not_digit (h w (List.mem_cons_self ..))

theorem digit_char_spec (m : Nat) (h : m < 10) :
    isDigitChar (Char.ofNat (48 + m)) = true ∧ digitVal (Char.ofNat (48 + m)) = m := by
  interval_cases m <;> exact ⟨rfl, rfl⟩

theorem natDigitsAux_eq (n : Nat) (acc : List Char) :
    natDigitsAux n acc = if n < 10 then Char.ofNat (48 + n) :: acc
      else natDigitsAux (n / 10) (Char.ofNat (48 + n % 10) :: acc) := by
  rw [natDigitsAux]
  split
  · next h => simp [h]
  · next h => simp [h]


theorem natDigitsAux_acc (n : Nat) (acc : List Char) :
    natDigitsAux n acc = natDigits n ++ acc := by
  induction n using Nat.strong_induction_on generalizing acc with
  | _ n ih =>
    rw [natDigits, natDigitsAux_eq n acc, natDigitsAux_eq n []]
    by_cases h : n < 10
    · simp [h]
    · simp only [h, if_false]
      have hlt : n / 10 < n := Nat.div_lt_self (by omega) (by omega)
      rw [ih (n / 10) hlt, ih (n / 10) hlt]
      simp

theorem natDigits_unfold (n : Nat) :
    natDigits n = if n < 10 then [Char.ofNat (48 + n)]
      else natDigits (n / 10) ++ [Char.ofNat (48 + n % 10)] := by
  rw [natDigits, natDigitsAux_eq n []]
  split
  · rfl
  · exact natDigitsAux_acc (n / 10) _

theorem natDigits_ne_nil (n : Nat) : natDigits n ≠ [] := by
  rw [natDigits_unfold]
  split
  · simp
  · simp

theorem natDigits_all_digit (n : Nat) : ∀ c ∈ natDigits n, isDigitChar c = true := by
  induction n using Nat.strong_induction_on with
  | _ n ih =>
    rw [natDigits_unfold]
    split
    · next h =>
      intro c hc
      rw [List.mem_singleton] at hc
      subst hc
      exact (digit_char_spec n h).1
    · next h =>
      intro c hc
      rw [List.mem_append] at hc
      rcases hc with hc | hc
      · exact ih (n / 10) (Nat.div_lt_self (by omega) (by omega)) c hc
      · rw [List.mem_singleton] at hc
        subst hc
        exact (digit_char_spec (n % 10) (Nat.mod_lt n (by omega))).1

theorem natDigits_foldl (n : Nat) :
    (natDigits n).foldl (fun a c => 10 * a + digitVal c) 0 = n := by
  induction n using Nat.strong_induction_on with
  | _ n ih =>
    rw [natDigits_unfold]
    split
    · next h =>
      simp [List.foldl, (digit_char_spec n h).2]
    · next h =>
      rw [List.foldl_append]
      rw [ih (n / 10) (Nat.div_lt_self (by omega) (by omega))]
      simp [List.foldl, (digit_char_spec (n % 10) (Nat.mod_lt n (by omega))).2]
      omega

theorem takeWhile_append_all {p : Char → Bool} {l : List Char}
    (h : ∀ c ∈ l, p c = true) (t : List Char) :
    (l ++ t).takeWhile p = l ++ t.takeWhile p := by
  induction l with
  | nil => rfl
  | cons c cs ih =>
    simp only [List.cons_append, List.takeWhile_cons, h c (List.mem_cons_self ..), if_true]
    rw [ih (fun d hd => h d (List.mem_cons_of_mem c hd))]

theorem dropWhile_append_all {p : Char → Bool} {l : List Char}
    (h : ∀ c ∈ l, p c = true) (t : List Char) :
    (l ++ t).dropWhile p = t.dropWhile p := by
  induction l with
  | nil => rfl
  | cons c cs ih =>
    simp only [List.cons_append, List.dropWhile_cons, h c (List.mem_cons_self ..), if_true]
    exact ih (fun d hd => h d (List.mem_cons_of_mem c hd))

theorem takeWhile_of_numGuard {t : List Char} (h : numGuard t) :
    t.takeWhile isDigitChar = [] := by
  cases t with
  | nil => rfl
  | cons c cs => simp [List.takeWhile_cons, show isDigitChar c = false from h]

theorem dropWhile_of_numGuard {t : List Char} (h : numGuard t) :
    t.dropWhile isDigitChar = t := by
  cases t with
  | nil => rfl
  | cons c cs => simp [List.dropWhile_cons, show isDigitChar c = false from h]

theorem parseNatChars_natDigits (n : Nat) {rest : List Char} (h : numGuard rest) :
    parseNatChars (natDigits n ++ rest) = some (n, rest) := by
  rw [parseNatChars]
  rw [takeWhile_append_all (natDigits_all_digit n), takeWhile_of_numGuard h]
  rw [dropWhile_append_all (natDigits_all_digit n), dropWhile_of_numGuard h]
  simp only [List.append_nil]
  rw [if_neg (by simp [List.isEmpty_iff, natDigits_ne_nil n])]
  rw [natDigits_foldl]


theorem hexVal_hexDigitChar : ∀ m : Nat, m < 16 → hexVal (hexDigitChar m) = some m := by
  decide

theorem psb_close (tail : List Char) : parseStringBody ('"' :: tail) = some ([], tail) := by
  rw [parseStringBody.eq_def]
  simp

theorem psb_quote (tail : List Char) :
    parseStringBody ('\\' :: '"' :: tail) =
      (parseStringBody tail).map (fun p => ('"' :: p.1, p.2)) := by
  rw [parseStringBody.eq_def]
  simp

theorem psb_backslash (tail : List Char) :
    parseStringBody ('\\' :: '\\' :: tail) =
      (parseStringBody tail).map (fun p => ('\\' :: p.1, p.2)) := by
  rw [parseStringBody.eq_def]
  simp

theorem psb_b (tail : List Char) :
    parseStringBody ('\\' :: 'b' :: tail) =
      (parseStringBody tail).map (fun p => ('\x08' :: p.1, p.2)) := by
  rw [parseStringBody.eq_def]
  simp

theorem psb_t (tail : List Char) :
    parseStringBody ('\\' :: 't' :: tail) =
      (parseStringBody tail).map (fun p => ('\t' :: p.1, p.2)) := by
  rw [parseStringBody.eq_def]
  simp

theorem psb_n (tail : List Char) :
    parseStringBody ('\\' :: 'n' :: tail) =
      (parseStringBody tail).map (fun p => ('\n' :: p.1, p.2)) := by
  rw [parseStringBody.eq_def]
  simp

theorem psb_f (tail : List Char) :
    parseStringBody ('\\' :: 'f' :: tail) =
      (parseStringBody tail).map (fun p => ('\x0c' :: p.1, p.2)) := by
  rw [parseStringBody.eq_def]
  simp

theorem psb_r (tail : List Char) :
    parseStringBody ('\\' :: 'r' :: tail) =
      (parseStringBody tail).map (fun p => ('\x0d' :: p.1, p.2)) := by
  rw [parseStringBody.eq_def]
  simp

theorem psb_unicode (a b : Char) (tail : List Char) :
    parseStringBody ('\\' :: 'u' :: '0' :: '0' :: a :: b :: tail) =
      (match hexVal a, hexVal b with
       | some u, some d =>
           (parseStringBody tail).map
             (fun p => (Char.ofNat (u * 16 + d) :: p.1, p.2))
       | _, _ => none) := by
  rw [parseStringBody.eq_def]
  cases ha : hexVal a <;> cases hb : hexVal b <;>
    simp [ha, hb, show hexVal '0' = some 0 from rfl]

theorem psb_plain {c : Char} (h1 : ¬c = '"') (h2 : ¬c = '\\') (tail : List Char) :
    parseStringBody (c :: tail) =
      (parseStringBody tail).map (fun p => (c :: p.1, p.2)) := by
  rw [parseStringBody.eq_def]
  simp [h1, h2]


theorem char_eq_of_toNat {c : Char} {m : Nat} (h : c.toNat = m) : c = Char.ofNat m := by
  rw [← h, Char.ofNat_toNat]

theorem parseStringBody_escapeChars (s : List Char) (rest : List Char) :
    parseStringBody (escapeChars s ++ '"' :: rest) = some (s, rest) := by
  induction s with
  | nil =>
    simpa using psb_close rest
  | cons c cs ih =>
    rw [escapeChars, escapeChar]
    split_ifs with h1 h2 h3 h4 h5 h6 h7 h8
    · subst h1
      simp only [List.cons_append, List.nil_append, List.append_assoc]
      rw [psb_quote, ih]
      rfl
    · subst h2
      simp only [List.cons_append, List.nil_append, List.append_assoc]
      rw [psb_backslash, ih]
      rfl
    · rw [char_eq_of_toNat h3]
      simp only [List.cons_append, List.nil_append, List.append_assoc]
      rw [psb_b, ih]
      rfl
    · rw [char_eq_of_toNat h4]
      simp only [List.cons_append, List.nil_append, List.append_assoc]
      rw [psb_t, ih]
      rfl
    · rw [char_eq_of_toNat h5]
      simp only [List.cons_append, List.nil_append, List.append_assoc]
      rw [psb_n, ih]
      rfl
    · rw [char_eq_of_toNat h6]
      simp only [List.cons_append, List.nil_append, List.append_assoc]
      rw [psb_f, ih]
      rfl
    · rw [char_eq_of_toNat h7]
      simp only [List.cons_append, List.nil_append, List.append_assoc]
      rw [psb_r, ih]
      rfl
    · simp only [List.cons_append, List.nil_append, List.append_assoc]
      rw [psb_unicode]
      simp only [hexVal_hexDigitChar (c.toNat / 16) (by omega),
                 hexVal_hexDigitChar (c.toNat % 16) (by omega)]
      have hval : c.toNat / 16 * 16 + c.toNat % 16 = c.toNat := by omega
      rw [hval, Char.ofNat_toNat, ih]
      rfl
    · simp only [List.cons_append, List.nil_append, List.append_assoc]
      rw [psb_plain h1 h2, ih]
      rfl


theorem skipWs_skipWs (l : List Char) : skipWs (skipWs l) = skipWs l := by
  induction l with
  | nil => rfl
  | cons c cs ih =>
    by_cases h : isWsChar c = true
    · simp only [skipWs, List.dropWhile_cons, h, if_true]
      exact ih
    · have h' : isWsChar c = false := by simpa using h
      rw [skipWs_cons_of_not_ws h']
      exact skipWs_cons_of_not_ws h' cs

theorem pv_zero (cs : List Char) : parseValue 0 cs = none := by
  rw [parseValue.eq_def]

theorem pv_succ (fuel : Nat) (cs : List Char) :
    parseValue (fuel + 1) cs =
      (match skipWs cs with
       | [] => none
       | c :: cs' =>
         if c = '"' then
           (parseStringBody cs').map (fun p => (Json.str (String.mk p.1), p.2))
         else if c = '[' then
           match skipWs cs' with
           | [] => none
           | d :: rest =>
             if d = ']' then some (.arr [], rest)
             else (parseElems fuel (d :: rest)).map (fun p => (Json.arr p.1, p.2))
         else if c = lbrace then
           match skipWs cs' with
           | [] => none
           | d :: rest =>
             if d = rbrace then some (.obj [], rest)
             else (parseFields fuel (d :: rest)).map (fun p => (Json.obj p.1, p.2))
         else if c = '-' then
           (parseNatChars cs').map (fun p => (Json.int (-(p.1 : Int)), p.2))
         else if isDigitChar c then
           (parseNatChars (c :: cs')).map (fun p => (Json.int (p.1 : Int), p.2))
         else none) := by
  rw [parseValue.eq_def]

theorem pe_zero (cs : List Char) : parseElems 0 cs = none := by
  rw [parseElems.eq_def]

theorem pe_succ (fuel : Nat) (cs : List Char) :
    parseElems (fuel + 1) cs =
      (match parseValue fuel cs with
       | none => none
       | some (v, rest) =>
         match skipWs rest with
         | [] => none
         | c :: rest' =>
           if c = ',' then (parseElems fuel rest').map (fun p => (v :: p.1, p.2))
           else if c = ']' then some ([v], rest')
           else none) := by
  rw [parseElems.eq_def]

theorem pf_zero (cs : List Char) : parseFields 0 cs = none := by
  rw [parseFields.eq_def]

theorem pf_succ (fuel : Nat) (cs : List Char) :
    parseFields (fuel + 1) cs =
      (match skipWs cs with
       | [] => none
       | c :: cs' =>
         if c = '"' then
           match parseStringBody cs' with
           | none => none
           | some (kcs, rest) =>
             match skipWs rest with
             | [] => none
             | d :: rest' =>
               if d = ':' then
                 match parseValue fuel rest' with
                 | none => none
                 | some (v, rest2) =>
                   match skipWs rest2 with
                   | [] => none
                   | e :: rest3 =>
                     if e = ',' then
                       (parseFields fuel rest3).map (fun p => ((String.mk kcs, v) :: p.1, p.2))
                     else if e = rbrace then some ([(String.mk kcs, v)], rest3)
                     else none
               else none
         else none) := by
  rw [parseFields.eq_def]

theorem parseValue_skipWs (fuel : Nat) (cs : List Char) :
    parseValue fuel (skipWs cs) = parseValue fuel cs := by
  cases fuel with
  | zero => rw [pv_zero, pv_zero]
  | succ f => rw [pv_succ, pv_succ, skipWs_skipWs]

theorem parseValue_after_ws (fuel : Nat) {pre : List Char} (h : allWs pre)
    (cs : List Char) : parseValue fuel (pre ++ cs) = parseValue fuel cs := by
  cases fuel with
  | zero => rw [pv_zero, pv_zero]
  | succ f => rw [pv_succ, pv_succ, skipWs_append_of_allWs h]

theorem parseElems_skipWs (fuel : Nat) (cs : List Char) :
    parseElems fuel (skipWs cs) = parseElems fuel cs := by
  cases fuel with
  | zero => rw [pe_zero, pe_zero]
  | succ f => rw [pe_succ, pe_succ, parseValue_skipWs]

theorem parseElems_after_ws (fuel : Nat) {pre : List Char} (h : allWs pre)
    (cs : List Char) : parseElems fuel (pre ++ cs) = parseElems fuel cs := by
  cases fuel with
  | zero => rw [pe_zero, pe_zero]
  | succ f => rw [pe_succ, pe_succ, parseValue_after_ws _ h]

theorem parseFields_skipWs (fuel : Nat) (cs : List Char) :
    parseFields fuel (skipWs cs) = parseFields fuel cs := by
  cases fuel with
  | zero => rw [pf_zero, pf_zero]
  | succ f => rw [pf_succ, pf_succ, skipWs_skipWs]

theorem parseFields_after_ws (fuel : Nat) {pre : List Char} (h : allWs pre)
    (cs : List Char) : parseFields fuel (pre ++ cs) = parseFields fuel cs := by
  cases fuel with
  | zero => rw [pf_zero, pf_zero]
  | succ f => rw [pf_succ, pf_succ, skipWs_append_of_allWs h]

theorem char_ne_of_toNat_ne {c d : Char} (h : c.toNat ≠ d.toNat) : c ≠ d :=
  fun he => h (congrArg Char.toNat he)

theorem digit_head_facts {c : Char} (h : isDigitChar c = true) :
    isWsChar c = false ∧ c ≠ ']' ∧ c ≠ rbrace ∧ c ≠ ',' := by
  simp only [isDigitChar, Bool.and_eq_true, decide_eq_true_eq] at h
  obtain ⟨h1, h2⟩ := h
  have hws : isWsChar c = false := by
    have hsp : c ≠ ' ' := char_ne_of_toNat_ne (by rw [show (' ' : Char).toNat = 32 from rfl]; omega)
    have hnl : c ≠ '\n' := char_ne_of_toNat_ne (by rw [show Char.toNat '\n' = 10 from rfl]; omega)
    have htb : c ≠ '\t' := char_ne_of_toNat_ne (by rw [show Char.toNat '\t' = 9 from rfl]; omega)
    have hcr : c ≠ '\x0d' := char_ne_of_toNat_ne (by rw [show Char.toNat '\x0d' = 13 from rfl]; omega)
    simp [isWsChar, hsp, hnl, htb, hcr]
  exact ⟨hws,
    char_ne_of_toNat_ne (by rw [show (']' : Char).toNat = 93 from rfl]; omega),
    char_ne_of_toNat_ne (by rw [show rbrace.toNat = 125 from rfl]; omega),
    char_ne_of_toNat_ne (by rw [show (',' : Char).toNat = 44 from rfl]; omega)⟩


theorem pv_on_quote (fuel : Nat) (cs cs' : List Char) (h : skipWs cs = '"' :: cs') :
    parseValue (fuel + 1) cs =
      (parseStringBody cs').map (fun p => (Json.str (String.mk p.1), p.2)) := by
  rw [pv_succ, h]
  simp

theorem pv_on_lbracket (fuel : Nat) (cs cs' : List Char) (h : skipWs cs = '[' :: cs') :
    parseValue (fuel + 1) cs =
      (match skipWs cs' with
       | [] => none
       | d :: rest =>
         if d = ']' then some (.arr [], rest)
         else (parseElems fuel (d :: rest)).map (fun p => (Json.arr p.1, p.2))) := by
  rw [pv_succ, h]
  simp

theorem pv_on_lbrace (fuel : Nat) (cs cs' : List Char) (h : skipWs cs = lbrace :: cs') :
    parseValue (fuel + 1) cs =
      (match skipWs cs' with
       | [] => none
       | d :: rest =>
         if d = rbrace then some (.obj [], rest)
         else (parseFields fuel (d :: rest)).map (fun p => (Json.obj p.1, p.2))) := by
  rw [pv_succ, h]
  simp [show (lbrace = '"') = False by decide, show (lbrace = '[') = False by decide]

theorem pv_on_minus (fuel : Nat) (cs cs' : List Char) (h : skipWs cs = '-' :: cs') :
    parseValue (fuel + 1) cs =
      (parseNatChars cs').map (fun p => (Json.int (-(p.1 : Int)), p.2)) := by
  rw [pv_succ, h]
  simp [show (('-' : Char) = '"') = False by decide, show (('-' : Char) = '[') = False by decide,
        show (('-' : Char) = lbrace) = False by decide]

theorem digit_not_special {c : Char} (h : isDigitChar c = true) :
    ¬c = '"' ∧ ¬c = '[' ∧ ¬c = lbrace ∧ ¬c = '-' := by
  simp only [isDigitChar, Bool.and_eq_true, decide_eq_true_eq] at h
  obtain ⟨h1, h2⟩ := h
  exact ⟨char_ne_of_toNat_ne (by rw [show ('"' : Char).toNat = 34 from rfl]; omega),
    char_ne_of_toNat_ne (by rw [show ('[' : Char).toNat = 91 from rfl]; omega),
    char_ne_of_toNat_ne (by rw [show lbrace.toNat = 123 from rfl]; omega),
    char_ne_of_toNat_ne (by rw [show ('-' : Char).toNat = 45 from rfl]; omega)⟩

theorem pv_on_digit (fuel : Nat) (cs cs' : List Char) {c : Char}
    (hd : isDigitChar c = true) (h : skipWs cs = c :: cs') :
    parseValue (fuel + 1) cs =
      (parseNatChars (c :: cs')).map (fun p => (Json.int (p.1 : Int), p.2)) := by
  obtain ⟨n1, n2, n3, n4⟩ := digit_not_special hd
  rw [pv_succ, h]
  simp [n1, n2, n3, n4, hd]


theorem pa_str (ind : Nat) (s : String) :
    printAt ind (.str s) = '"' :: (escapeChars s.data ++ ['"']) := by
  rw [printAt]

theorem pa_int (ind : Nat) (n : Int) : printAt ind (.int n) = intChars n := by
  rw [printAt]

theorem pa_arr_nil (ind : Nat) : printAt ind (.arr []) = ['[', ']'] := by
  rw [printAt]

theorem pa_arr_cons (ind : Nat) (x : Json) (xs : List Json) :
    printAt ind (.arr (x :: xs)) =
      '[' :: '\n' :: (printItems (ind + 1) x xs ++ '\n' :: (indentChars ind ++ [']'])) := by
  rw [printAt]

theorem pa_obj_nil (ind : Nat) : printAt ind (.obj []) = [lbrace, rbrace] := by
  rw [printAt]

theorem pa_obj_cons (ind : Nat) (f : String × Json) (fs : List (String × Json)) :
    printAt ind (.obj (f :: fs)) =
      lbrace :: '\n' :: (printFields (ind + 1) f fs ++ '\n' :: (indentChars ind ++ [rbrace])) := by
  rw [printAt]

theorem pi_nil (ind : Nat) (x : Json) :
    printItems ind x [] = indentChars ind ++ printAt ind x := by
  rw [printItems]

theorem pi_cons (ind : Nat) (x y : Json) (ys : List Json) :
    printItems ind x (y :: ys) =
      indentChars ind ++ printAt ind x ++ ',' :: '\n' :: printItems ind y ys := by
  rw [printItems]

theorem pfl_nil (ind : Nat) (k : String) (v : Json) :
    printFields ind (k, v) [] =
      indentChars ind ++ ('"' :: (escapeChars k.data ++ '"' :: ':' :: ' ' :: printAt ind v)) := by
  rw [printFields]

theorem pfl_cons (ind : Nat) (k : String) (v : Json) (g : String × Json)
    (gs : List (String × Json)) :
    printFields ind (k, v) (g :: gs) =
      indentChars ind ++ ('"' :: (escapeChars k.data ++ '"' :: ':' :: ' ' :: printAt ind v)) ++
        ',' :: '\n' :: printFields ind g gs := by
  rw [printFields]

theorem printAt_head (ind : Nat) (v : Json) :
    ∃ c t, printAt ind v = c :: t ∧ isWsChar c = false ∧ c ≠ ']' ∧ c ≠ rbrace ∧ c ≠ ',' := by
  cases v with
  | str s => exact ⟨'"', _, pa_str ind s, by decide, by decide, by decide, by decide⟩
  | int n =>
    rw [pa_int, intChars]
    split
    · exact ⟨'-', _, rfl, by decide, by decide, by decide, by decide⟩
    · obtain ⟨c, t, hct⟩ : ∃ c t, natDigits n.toNat = c :: t := by
        cases hnd : natDigits n.toNat with
        | nil => exact absurd hnd (natDigits_ne_nil _)
        | cons c t => exact ⟨c, t, rfl⟩
      have hd : isDigitChar c = true := natDigits_all_digit _ c (hct ▸ List.mem_cons_self ..)
      obtain ⟨w1, w2, w3, w4⟩ := digit_head_facts hd
      exact ⟨c, t, hct, w1, w2, w3, w4⟩
  | arr xs =>
    cases xs with
    | nil => exact ⟨'[', _, pa_arr_nil ind, by decide, by decide, by decide, by decide⟩
    | cons x xs => exact ⟨'[', _, pa_arr_cons ind x xs, by decide, by decide, by decide, by decide⟩
  | obj fs =>
    cases fs with
    | nil => exact ⟨lbrace, _, pa_obj_nil ind, by decide, by decide, by decide, by decide⟩
    | cons f fs => exact ⟨lbrace, _, pa_obj_cons ind f fs, by decide, by decide, by decide, by decide⟩

theorem skipWs_printItems_shape (ind : Nat) (x : Json) (xs : List Json) (T : List Char) :
    ∃ c t, skipWs (printItems ind x xs ++ T) = c :: t ∧
      isWsChar c = false ∧ c ≠ ']' ∧ c ≠ rbrace ∧ c ≠ ',' := by
  obtain ⟨c, t, hct, hw, h1, h2, h3⟩ := printAt_head ind x
  cases xs with
  | nil =>
    rw [pi_nil, List.append_assoc, skipWs_append_of_allWs (allWs_indentChars ind), hct,
      List.cons_append, skipWs_cons_of_not_ws hw]
    exact ⟨c, _, rfl, hw, h1, h2, h3⟩
  | cons y ys =>
    rw [pi_cons]
    simp only [List.append_assoc, List.cons_append]
    rw [skipWs_append_of_allWs (allWs_indentChars ind), hct, List.cons_append,
      skipWs_cons_of_not_ws hw]
    exact ⟨c, _, rfl, hw, h1, h2, h3⟩

theorem skipWs_printFields_shape (ind : Nat) (f : String × Json)
    (fs : List (String × Json)) (T : List Char) :
    ∃ t, skipWs (printFields ind f fs ++ T) = '"' :: t := by
  obtain ⟨k, v⟩ := f
  cases fs with
  | nil =>
    rw [pfl_nil, List.append_assoc, skipWs_append_of_allWs (allWs_indentChars ind),
      List.cons_append, skipWs_cons_of_not_ws (by decide)]
    exact ⟨_, rfl⟩
  | cons g gs =>
    rw [pfl_cons]
    simp only [List.append_assoc, List.cons_append]
    rw [skipWs_append_of_allWs (allWs_indentChars ind), skipWs_cons_of_not_ws (by decide)]
    exact ⟨_, rfl⟩

theorem size_pos (v : Json) : 1 ≤ Json.size v := by
  cases v <;> simp [Json.size]

theorem sizeList_pos (xs : List Json) : 1 ≤ Json.sizeList xs := by
  cases xs <;> simp [Json.sizeList] <;> omega

theorem sizeObj_pos (fs : List (String × Json)) : 1 ≤ Json.sizeObj fs := by
  cases fs <;> simp [Json.sizeObj] <;> omega


theorem allWs_cons {c : Char} (hc : isWsChar c = true) {l : List Char} (hl : allWs l) :
    allWs (c :: l) := by
  intro a ha
  rw [List.mem_cons] at ha
  rcases ha with rfl | ha
  · exact hc
  · exact hl a ha

theorem allWs_nl : allWs ['\n'] := by
  intro a ha
  rw [List.mem_singleton] at ha
  subst ha
  rfl

theorem allWs_sp : allWs [' '] := by
  intro a ha
  rw [List.mem_singleton] at ha
  subst ha
  rfl

theorem allWs_nl_indent (ind : Nat) : allWs ('\n' :: indentChars ind) :=
  allWs_cons (by decide) (allWs_indentChars ind)

theorem pe_succ_some (fuel : Nat) (cs : List Char) (v : Json) (tail : List Char)
    (h : parseValue fuel cs = some (v, tail)) :
    parseElems (fuel + 1) cs =
      (match skipWs tail with
       | [] => none
       | c :: rest' =>
         if c = ',' then (parseElems fuel rest').map (fun p => (v :: p.1, p.2))
         else if c = ']' then some ([v], rest')
         else none) := by
  rw [pe_succ, h]

theorem elems_close (fuel : Nat) (v : Json) (ws rest : List Char) (hws : allWs ws) :
    (match skipWs (ws ++ (']' :: rest)) with
     | [] => none
     | c :: rest' =>
       if c = ',' then (parseElems fuel rest').map (fun p => (v :: p.1, p.2))
       else if c = ']' then some ([v], rest')
       else none) = some ([v], rest) := by
  rw [skipWs_append_of_allWs hws, skipWs_cons_of_not_ws (by decide)]
  simp

theorem elems_comma (fuel : Nat) (v : Json) (tail : List Char) :
    (match skipWs (',' :: tail) with
     | [] => none
     | c :: rest' =>
       if c = ',' then (parseElems fuel rest').map (fun p => (v :: p.1, p.2))
       else if c = ']' then some ([v], rest')
       else none) = (parseElems fuel tail).map (fun p => (v :: p.1, p.2)) := by
  rw [skipWs_cons_of_not_ws (by decide)]
  simp

theorem fields_close (fuel : Nat) (k : String) (v : Json) (ws rest : List Char)
    (hws : allWs ws) :
    (match skipWs (ws ++ (rbrace :: rest)) with
     | [] => none
     | e :: rest3 =>
       if e = ',' then (parseFields fuel rest3).map (fun p => ((k, v) :: p.1, p.2))
       else if e = rbrace then some ([(k, v)], rest3)
       else none) = some ([(k, v)], rest) := by
  rw [skipWs_append_of_allWs hws, skipWs_cons_of_not_ws (by decide)]
  simp [show (rbrace = ',') = False by decide]

theorem fields_comma (fuel : Nat) (k : String) (v : Json) (tail : List Char) :
    (match skipWs (',' :: tail) with
     | [] => none
     | e :: rest3 =>
       if e = ',' then (parseFields fuel rest3).map (fun p => ((k, v) :: p.1, p.2))
       else if e = rbrace then some ([(k, v)], rest3)
       else none) = (parseFields fuel tail).map (fun p => ((k, v) :: p.1, p.2)) := by
  rw [skipWs_cons_of_not_ws (by decide)]
  simp

theorem arr_branch_elems (fuel : Nat) {c0 : Char} (t0 : List Char) (h : ¬c0 = ']') :
    (match c0 :: t0 with
     | [] => none
     | d :: rest =>
       if d = ']' then some (Json.arr [], rest)
       else (parseElems fuel (d :: rest)).map (fun p => (Json.arr p.1, p.2))) =
      (parseElems fuel (c0 :: t0)).map (fun p => (Json.arr p.1, p.2)) := by
  simp [h]

theorem obj_branch_fields (fuel : Nat) {c0 : Char} (t0 : List Char) (h : ¬c0 = rbrace) :
    (match c0 :: t0 with
     | [] => none
     | d :: rest =>
       if d = rbrace then some (Json.obj [], rest)
       else (parseFields fuel (d :: rest)).map (fun p => (Json.obj p.1, p.2))) =
      (parseFields fuel (c0 :: t0)).map (fun p => (Json.obj p.1, p.2)) := by
  simp [h]

theorem pf_entry (fuel : Nat) (cs : List Char) (k : String) (mid tail : List Char) (v : Json)
    (hskip : skipWs cs = '"' :: (escapeChars k.data ++ ('"' :: ':' :: mid)))
    (hv : parseValue fuel mid = some (v, tail)) :
    parseFields (fuel + 1) cs =
      (match skipWs tail with
       | [] => none
       | e :: rest3 =>
         if e = ',' then (parseFields fuel rest3).map (fun p => ((k, v) :: p.1, p.2))
         else if e = rbrace then some ([(k, v)], rest3)
         else none) := by
  rw [pf_succ, hskip]
  simp [parseStringBody_escapeChars, skipWs_cons_of_not_ws (show isWsChar ':' = false by decide), hv]


theorem parse_print_aux (fuel : Nat) :
    (∀ (v : Json) (ind : Nat) (rest : List Char), Json.size v ≤ fuel → numGuard rest →
      parseValue fuel (printAt ind v ++ rest) = some (v, rest)) ∧
    (∀ (x : Json) (xs : List Json) (ind : Nat) (ws rest : List Char), allWs ws →
      Json.sizeList (x :: xs) ≤ fuel →
      parseElems fuel (printItems ind x xs ++ (ws ++ (']' :: rest))) = some (x :: xs, rest)) ∧
    (∀ (k : String) (v : Json) (fs : List (String × Json)) (ind : Nat) (ws rest : List Char),
      allWs ws → Json.sizeObj ((k, v) :: fs) ≤ fuel →
      parseFields fuel (printFields ind (k, v) fs ++ (ws ++ (rbrace :: rest))) =
        some ((k, v) :: fs, rest)) := by
  induction fuel with
  | zero =>
    refine ⟨fun v ind rest hs _ => absurd hs (by have := size_pos v; omega),
            fun x xs ind ws rest _ hs => absurd hs (by have := sizeList_pos (x :: xs); omega),
            fun k v fs ind ws rest _ hs => absurd hs (by have := sizeObj_pos ((k, v) :: fs); omega)⟩
  | succ fuel ih =>
    obtain ⟨ihV, ihE, ihF⟩ := ih
    refine ⟨?_, ?_, ?_⟩
    · intro v ind rest hs hrest
      cases v with
      | str s =>
        rw [pa_str]
        have hskip : skipWs (('"' :: (escapeChars s.data ++ ['"'])) ++ rest) =
            '"' :: (escapeChars s.data ++ ('"' :: rest)) := by
          simp only [List.cons_append, List.append_assoc, List.singleton_append]
          exact skipWs_cons_of_not_ws (by decide) _
        rw [pv_on_quote fuel _ _ hskip, parseStringBody_escapeChars]
        rfl
      | int n =>
        rw [pa_int, intChars]
        split
        · next hneg =>
          have hskip : skipWs (('-' :: natDigits (-n).toNat) ++ rest) =
              '-' :: (natDigits (-n).toNat ++ rest) := by
            rw [List.cons_append]
            exact skipWs_cons_of_not_ws (by decide) _
          rw [pv_on_minus fuel _ _ hskip, parseNatChars_natDigits _ hrest]
          have hval : -(((-n).toNat : Int)) = n := by omega
          show some (Json.int (-(((-n).toNat : Int))), rest) = some (Json.int n, rest)
          rw [hval]
        · next hpos =>
          obtain ⟨c, t, hct⟩ : ∃ c t, natDigits n.toNat = c :: t := by
            cases hnd : natDigits n.toNat with
            | nil => exact absurd hnd (natDigits_ne_nil _)
            | cons c t => exact ⟨c, t, rfl⟩
          have hd : isDigitChar c = true := natDigits_all_digit _ c (hct ▸ List.mem_cons_self ..)
          have hskip : skipWs (natDigits n.toNat ++ rest) = c :: (t ++ rest) := by
            rw [hct, List.cons_append]
            exact skipWs_cons_of_not_ws (digit_head_facts hd).1 _
          rw [pv_on_digit fuel _ _ hd hskip]
          rw [show c :: (t ++ rest) = natDigits n.toNat ++ rest by rw [hct, List.cons_append]]
          rw [parseNatChars_natDigits _ hrest]
          have hval : ((n.toNat : Int)) = n := by omega
          show some (Json.int ((n.toNat : Int)), rest) = some (Json.int n, rest)
          rw [hval]
      | arr xs =>
        cases xs with
        | nil =>
          rw [pa_arr_nil]
          have hskip : skipWs ((['[', ']'] : List Char) ++ rest) = '[' :: (']' :: rest) := by
            rw [show (['[', ']'] : List Char) ++ rest = '[' :: (']' :: rest) from rfl]
            exact skipWs_cons_of_not_ws (by decide) _
          rw [pv_on_lbracket fuel _ _ hskip]
          rw [skipWs_cons_of_not_ws (by decide)]
          simp
        | cons x xs =>
          rw [pa_arr_cons]
          have hskip : skipWs (('[' :: '\n' ::
              (printItems (ind + 1) x xs ++ '\n' :: (indentChars ind ++ [']']))) ++ rest) =
              '[' :: ('\n' :: (printItems (ind + 1) x xs ++
                (('\n' :: indentChars ind) ++ (']' :: rest)))) := by
            simp only [List.cons_append, List.append_assoc, List.singleton_append]
            exact skipWs_cons_of_not_ws (by decide) _
          rw [pv_on_lbracket fuel _ _ hskip]
          obtain ⟨c0, t0, hsk2, hw0, hne1, hne2, hne3⟩ :=
            skipWs_printItems_shape (ind + 1) x xs (('\n' :: indentChars ind) ++ (']' :: rest))
          have hsk3 : skipWs ('\n' :: (printItems (ind + 1) x xs ++
              (('\n' :: indentChars ind) ++ (']' :: rest)))) = c0 :: t0 := by
            rw [show ('\n' :: (printItems (ind + 1) x xs ++
                (('\n' :: indentChars ind) ++ (']' :: rest)))) =
              ['\n'] ++ (printItems (ind + 1) x xs ++
                (('\n' :: indentChars ind) ++ (']' :: rest))) from rfl]
            rw [skipWs_append_of_allWs allWs_nl]
            exact hsk2
          rw [hsk3, arr_branch_elems fuel t0 hne1]
          rw [← hsk3, parseElems_skipWs]
          rw [show ('\n' :: (printItems (ind + 1) x xs ++
              (('\n' :: indentChars ind) ++ (']' :: rest)))) =
            ['\n'] ++ (printItems (ind + 1) x xs ++
              (('\n' :: indentChars ind) ++ (']' :: rest))) from rfl]
          rw [parseElems_after_ws fuel allWs_nl]
          rw [ihE x xs (ind + 1) ('\n' :: indentChars ind) rest (allWs_nl_indent ind)
            (by simp only [Json.size] at hs; omega)]
          rfl
      | obj fs =>
        cases fs with
        | nil =>
          rw [pa_obj_nil]
          have hskip : skipWs (([lbrace, rbrace] : List Char) ++ rest) =
              lbrace :: (rbrace :: rest) := by
            rw [show ([lbrace, rbrace] : List Char) ++ rest = lbrace :: (rbrace :: rest) from rfl]
            exact skipWs_cons_of_not_ws (by decide) _
          rw [pv_on_lbrace fuel _ _ hskip]
          rw [skipWs_cons_of_not_ws (by decide)]
          simp
        | cons f fs =>
          rw [pa_obj_cons]
          have hskip : skipWs ((lbrace :: '\n' ::
              (printFields (ind + 1) f fs ++ '\n' :: (indentChars ind ++ [rbrace]))) ++ rest) =
              lbrace :: ('\n' :: (printFields (ind + 1) f fs ++
                (('\n' :: indentChars ind) ++ (rbrace :: rest)))) := by
            simp only [List.cons_append, List.append_assoc, List.singleton_append]
            exact skipWs_cons_of_not_ws (by decide) _
          rw [pv_on_lbrace fuel _ _ hskip]
          obtain ⟨t0, hsk2⟩ :=
            skipWs_printFields_shape (ind + 1) f fs (('\n' :: indentChars ind) ++ (rbrace :: rest))
          have hsk3 : skipWs ('\n' :: (printFields (ind + 1) f fs ++
              (('\n' :: indentChars ind) ++ (rbrace :: rest)))) = '"' :: t0 := by
            rw [show ('\n' :: (printFields (ind + 1) f fs ++
                (('\n' :: indentChars ind) ++ (rbrace :: rest)))) =
              ['\n'] ++ (printFields (ind + 1) f fs ++
                (('\n' :: indentChars ind) ++ (rbrace :: rest))) from rfl]
            rw [skipWs_append_of_allWs allWs_nl]
            exact hsk2
          rw [hsk3, obj_branch_fields fuel t0 (by decide)]
          rw [← hsk3, parseFields_skipWs]
          rw [show ('\n' :: (printFields (ind + 1) f fs ++
              (('\n' :: indentChars ind) ++ (rbrace :: rest)))) =
            ['\n'] ++ (printFields (ind + 1) f fs ++
              (('\n' :: indentChars ind) ++ (rbrace :: rest))) from rfl]
          rw [parseFields_after_ws fuel allWs_nl]
          obtain ⟨k, v⟩ := f
          rw [ihF k v fs (ind + 1) ('\n' :: indentChars ind) rest (allWs_nl_indent ind)
            (by simp only [Json.size] at hs; omega)]
          rfl
    · intro x xs ind ws rest hws hs
      cases xs with
      | nil =>
        have hv : parseValue fuel (printItems ind x [] ++ (ws ++ (']' :: rest))) =
            some (x, ws ++ (']' :: rest)) := by
          rw [pi_nil, List.append_assoc, parseValue_after_ws fuel (allWs_indentChars ind)]
          exact ihV x ind _ (by simp only [Json.sizeList] at hs; have := sizeList_pos ([] : List Json); omega)
            (numGuard_ws_cons hws (by decide) rest)
        rw [pe_succ_some fuel _ _ _ hv]
        exact elems_close fuel x ws rest hws
      | cons y ys =>
        have hv : parseValue fuel (printItems ind x (y :: ys) ++ (ws ++ (']' :: rest))) =
            some (x, ',' :: '\n' :: (printItems ind y ys ++ (ws ++ (']' :: rest)))) := by
          rw [pi_cons]
          simp only [List.append_assoc, List.cons_append]
          rw [parseValue_after_ws fuel (allWs_indentChars ind)]
          exact ihV x ind _ (by simp only [Json.sizeList] at hs; have := sizeList_pos (y :: ys); omega) rfl
        rw [pe_succ_some fuel _ _ _ hv, elems_comma fuel x _]
        rw [show ('\n' :: (printItems ind y ys ++ (ws ++ (']' :: rest)))) =
          ['\n'] ++ (printItems ind y ys ++ (ws ++ (']' :: rest))) from rfl]
        rw [parseElems_after_ws fuel allWs_nl]
        rw [ihE y ys ind ws rest hws (by simp only [Json.sizeList] at hs ⊢; have := size_pos x; omega)]
        rfl
    · intro k v fs ind ws rest hws hs
      cases fs with
      | nil =>
        have hskip2 : skipWs (printFields ind (k, v) [] ++ (ws ++ (rbrace :: rest))) =
            '"' :: (escapeChars k.data ++
              ('"' :: ':' :: (' ' :: (printAt ind v ++ (ws ++ (rbrace :: rest)))))) := by
          rw [pfl_nil]
          simp only [List.append_assoc, List.cons_append]
          rw [skipWs_append_of_allWs (allWs_indentChars ind)]
          exact skipWs_cons_of_not_ws (by decide) _
        have hv : parseValue fuel (' ' :: (printAt ind v ++ (ws ++ (rbrace :: rest)))) =
            some (v, ws ++ (rbrace :: rest)) := by
          rw [show (' ' :: (printAt ind v ++ (ws ++ (rbrace :: rest)))) =
            [' '] ++ (printAt ind v ++ (ws ++ (rbrace :: rest))) from rfl]
          rw [parseValue_after_ws fuel allWs_sp]
          exact ihV v ind _ (by simp only [Json.sizeObj] at hs; have := sizeObj_pos ([] : List (String × Json)); omega)
            (numGuard_ws_cons hws (by decide) rest)
        rw [pf_entry fuel _ k (' ' :: (printAt ind v ++ (ws ++ (rbrace :: rest))))
          (ws ++ (rbrace :: rest)) v hskip2 hv]
        exact fields_close fuel k v ws rest hws
      | cons g gs =>
        have hskip2 : skipWs (printFields ind (k, v) (g :: gs) ++ (ws ++ (rbrace :: rest))) =
            '"' :: (escapeChars k.data ++
              ('"' :: ':' :: (' ' :: (printAt ind v ++
                (',' :: '\n' :: (printFields ind g gs ++ (ws ++ (rbrace :: rest)))))))) := by
          rw [pfl_cons]
          simp only [List.append_assoc, List.cons_append]
          rw [skipWs_append_of_allWs (allWs_indentChars ind)]
          exact skipWs_cons_of_not_ws (by decide) _
        have hv : parseValue fuel (' ' :: (printAt ind v ++
            (',' :: '\n' :: (printFields ind g gs ++ (ws ++ (rbrace :: rest)))))) =
            some (v, ',' :: '\n' :: (printFields ind g gs ++ (ws ++ (rbrace :: rest)))) := by
          rw [show (' ' :: (printAt ind v ++
              (',' :: '\n' :: (printFields ind g gs ++ (ws ++ (rbrace :: rest)))))) =
            [' '] ++ (printAt ind v ++
              (',' :: '\n' :: (printFields ind g gs ++ (ws ++ (rbrace :: rest))))) from rfl]
          rw [parseValue_after_ws fuel allWs_sp]
          exact ihV v ind _ (by simp only [Json.sizeObj] at hs; have := sizeObj_pos (g :: gs); omega) rfl
        rw [pf_entry fuel _ k (' ' :: (printAt ind v ++
            (',' :: '\n' :: (printFields ind g gs ++ (ws ++ (rbrace :: rest))))))
          (',' :: '\n' :: (printFields ind g gs ++ (ws ++ (rbrace :: rest)))) v hskip2 hv]
        rw [fields_comma fuel k v _]
        rw [show ('\n' :: (printFields ind g gs ++ (ws ++ (rbrace :: rest)))) =
          ['\n'] ++ (printFields ind g gs ++ (ws ++ (rbrace :: rest))) from rfl]
        rw [parseFields_after_ws fuel allWs_nl]
        obtain ⟨k2, v2⟩ := g
        rw [ihF k2 v2 gs ind ws rest hws (by simp only [Json.sizeObj] at hs ⊢; have := size_pos v; omega)]
        rfl


mutual
theorem size_le_printAt (ind : Nat) (v : Json) : Json.size v ≤ (printAt ind v).length := by
  cases v with
  | str s =>
    rw [pa_str]
    simp [Json.size]
  | int n =>
    rw [pa_int, intChars]
    split
    · have := natDigits_ne_nil (-n).toNat
      cases h : natDigits (-n).toNat with
      | nil => exact absurd h this
      | cons c t => simp [Json.size, h]
    · have := natDigits_ne_nil n.toNat
      cases h : natDigits n.toNat with
      | nil => exact absurd h this
      | cons c t => simp [Json.size, h]
  | arr xs =>
    cases xs with
    | nil => simp [pa_arr_nil, Json.size, Json.sizeList]
    | cons x xs =>
      rw [pa_arr_cons]
      have h2 := sizes_le_printItems (ind + 1) x xs
      simp only [Json.size, List.length_cons, List.length_append, List.length_cons,
        indentChars, List.length_replicate, List.length_singleton]
      omega
  | obj fs =>
    cases fs with
    | nil => simp [pa_obj_nil, Json.size, Json.sizeObj]
    | cons f fs =>
      rw [pa_obj_cons]
      have h2 := sizes_le_printFields (ind + 1) f fs
      simp only [Json.size, List.length_cons, List.length_append,
        indentChars, List.length_replicate, List.length_singleton]
      omega
termination_by sizeOf v
decreasing_by all_goals (simp_wf <;> omega)

theorem sizes_le_printItems (ind : Nat) (x : Json) (xs : List Json) :
    Json.sizeList (x :: xs) ≤ (printItems ind x xs).length + 2 := by
  cases xs with
  | nil =>
    rw [pi_nil]
    have h1 := size_le_printAt ind x
    simp only [Json.sizeList, List.length_append, indentChars, List.length_replicate]
    omega
  | cons y ys =>
    rw [pi_cons]
    have h1 := size_le_printAt ind x
    have h2 := sizes_le_printItems ind y ys
    simp only [Json.sizeList, List.length_append, List.length_cons,
      indentChars, List.length_replicate] at h2 ⊢
    omega
termination_by 1 + sizeOf x + sizeOf xs
decreasing_by all_goals (simp_wf <;> omega)

theorem sizes_le_printFields (ind : Nat) (f : String × Json) (fs : List (String × Json)) :
    Json.sizeObj (f :: fs) ≤ (printFields ind f fs).length + 2 := by
  obtain ⟨k, v⟩ := f
  cases fs with
  | nil =>
    rw [pfl_nil]
    have h1 := size_le_printAt ind v
    simp only [Json.sizeObj, List.length_append, List.length_cons,
      indentChars, List.length_replicate]
    omega
  | cons g gs =>
    rw [pfl_cons]
    have h1 := size_le_printAt ind v
    have h2 := sizes_le_printFields ind g gs
    simp only [Json.sizeObj, List.length_append, List.length_cons,
      indentChars, List.length_replicate] at h2 ⊢
    omega
termination_by 1 + sizeOf f + sizeOf fs
decreasing_by all_goals (simp_wf <;> omega)
end

theorem json_loads_dumps (v : Json) : json_loads (json_dumps v) = some v := by
  have hfuel : Json.size v ≤ (printAt 0 v).length + 1 :=
    le_trans (size_le_printAt 0 v) (by omega)
  have hmain := (parse_print_aux ((printAt 0 v).length + 1)).1 v 0 [] hfuel trivial
  rw [List.append_nil] at hmain
  show (match parseValue ((printAt 0 v).length + 1) (printAt 0 v) with
        | some (w, rest) => if (skipWs rest).isEmpty then some w else none
        | none => none) = some v
  rw [hmain]
  simp [skipWs]

/-! Claim theorems. -/

/-- C1: for every topic and every `num_questions >= 1`, the fallback MCQ
envelope's `questions` list has exactly `min(num_questions, 5)` items, and
every item's `correct_answer` letter indexes an option present in that
item's `options` list. -/
theorem fallback_mcqs_count_and_invariant (now topic : String) (n : Int) (h : 1 ≤ n) :
    ∃ qs : List Json,
      (_generate_fallback_mcqs now topic n).getField "questions" = some (.arr qs) ∧
      (qs.length : Int) = min n 5 ∧
      ∀ q ∈ qs, mcqItemOk q = true := by
  refine ⟨_, rfl, ?_, ?_⟩
  · rw [length_pySliceUpTo, python_questions_length]
    split <;> omega
  · intro q hq
    exact List.all_eq_true.mp python_questions_all_ok q (mem_pySliceUpTo hq)

/-- Witness for C1 at `num_questions = 7`: the envelope holds
`min 7 5 = 5` questions, all satisfying the MCQItem invariant. -/
theorem fallback_mcqs_count_and_invariant_witness :
    ∃ qs : List Json,
      (_generate_fallback_mcqs "2024-01-01T00:00:00" "Algebra" 7).getField "questions" =
        some (.arr qs) ∧
      (qs.length : Int) = min 7 5 ∧
      ∀ q ∈ qs, mcqItemOk q = true :=
  fallback_mcqs_count_and_invariant "2024-01-01T00:00:00" "Algebra" 7 (by decide)

/-- C2: whenever the underlying generation call raises (modelled as the
engine returning `Except.error`), `generate_mcq_content` and
`generate_lesson_plan` return an envelope whose `note` field is exactly
the string "Generated using fallback content due to API limitations". -/
theorem fallback_note_on_generation_error (client : EngineClient)
    (now topic : String) (n : Int) (err : String)
    (hmcq : client.generate_questions topic n "medium" = .error err)
    (subject duration grade_level : String) (err2 : String)
    (hlp : client.content_generate_lesson_plan subject duration grade_level
      ["Understanding the process", "Identifying key components"] = .error err2) :
    (generate_mcq_content client now topic n).getField "note" =
      some (.str "Generated using fallback content due to API limitations") ∧
    (generate_lesson_plan client now subject duration grade_level).getField "note" =
      some (.str "Generated using fallback content due to API limitations") := by
  constructor
  · unfold generate_mcq_content
    rw [hmcq]
    rfl
  · unfold generate_lesson_plan
    rw [hlp]
    rfl

/-- Witness for C2 with the always-failing mock client at concrete
arguments. -/
theorem fallback_note_on_generation_error_witness :
    (generate_mcq_content MockEduChain "t" "Python Programming Basics" 5).getField "note" =
      some (.str "Generated using fallback content due to API limitations") ∧
    (generate_lesson_plan MockEduChain "t" "Python Programming Basics" "45 minutes" "beginner").getField "note" =
      some (.str "Generated using fallback content due to API limitations") :=
  fallback_note_on_generation_error MockEduChain "t" "Python Programming Basics" 5
    "Mock EduChain - using fallback content" rfl
    "Python Programming Basics" "45 minutes" "beginner"
    "Mock EduChain - using fallback content" rfl

/-- C3: the fallback lesson plan's `lesson_structure` has exactly the
three phases introduction, main_content, conclusion, in that order, with
durations "10 minutes", "25 minutes" and "10 minutes". -/
theorem fallback_lesson_plan_three_phases (now subject duration grade_level : String) :
    ∃ introPhase mainPhase conclPhase : Json,
      ((_generate_fallback_lesson_plan now subject duration grade_level).getField
          "lesson_plan").bind (fun lp => lp.getField "lesson_structure") =
        some (.obj
          [ ("introduction", introPhase),
            ("main_content", mainPhase),
            ("conclusion", conclPhase) ]) ∧
      introPhase.getField "duration" = some (.str "10 minutes") ∧
      mainPhase.getField "duration" = some (.str "25 minutes") ∧
      conclPhase.getField "duration" = some (.str "10 minutes") :=
  ⟨_, _, _, rfl, rfl, rfl, rfl⟩

/-- C4: `_generate_fallback_mcqs("Python Programming Basics", 3)` returns
exactly 3 questions, the first of which has `correct_answer` "A" and the
four list-creation options in source order. -/
theorem fallback_mcqs_concrete_three (now : String) :
    ∃ q1 : Json, ∃ others : List Json,
      (_generate_fallback_mcqs now "Python Programming Basics" 3).getField "questions" =
        some (.arr (q1 :: others)) ∧
      others.length = 2 ∧
      q1.getField "correct_answer" = some (.str "A") ∧
      q1.getField "options" = some (.arr
        [ .str "my_list = []",
          .str "my_list = ()",
          .str "my_list = \x7b\x7d",
          .str "my_list = <>" ]) :=
  ⟨_, _, rfl, rfl, rfl, rfl⟩

/-- C5 counterexample: two calls to `_generate_fallback_mcqs` with
identical arguments but made at different times yield different
envelopes, because the `generated_at` field records the call time; so the
envelopes are not identical in every field. -/
theorem fallback_mcqs_not_identical_across_calls :
    _generate_fallback_mcqs "2024-01-01T00:00:00" "Python Programming Basics" 3 ≠
      _generate_fallback_mcqs "2024-01-02T00:00:00" "Python Programming Basics" 3 := by
  intro h
  have h2 : some (Json.str "2024-01-01T00:00:00") = some (Json.str "2024-01-02T00:00:00") :=
    congrArg (fun v => Json.getField v "generated_at") h
  exact absurd (Json.str.inj (Option.some.inj h2)) (by decide)

/-- C5 as amended: fallback generation is deterministic in everything but
the timestamp — two calls with identical arguments agree on every field
other than `generated_at` (and calls at the same instant agree on that
one too). -/
theorem fallback_deterministic_except_timestamp
    (now1 now2 topic subject duration grade_level : String) (n : Int) :
    (_generate_fallback_mcqs now1 topic n).eraseField "generated_at" =
      (_generate_fallback_mcqs now2 topic n).eraseField "generated_at" ∧
    (_generate_fallback_lesson_plan now1 subject duration grade_level).eraseField
        "generated_at" =
      (_generate_fallback_lesson_plan now2 subject duration grade_level).eraseField
        "generated_at" :=
  ⟨rfl, rfl⟩

/-- C7: with the MockEduChain stub substituted by a failed initialization,
every generation attempt through the stub fails, yet both public methods
return the fallback envelope instead of propagating an exception. -/
theorem mock_client_generation_falls_back (now topic : String) (n : Int)
    (difficulty : String) (subject duration grade_level : String)
    (objectives : List String) :
    (MockEduChain.generate_questions topic n difficulty).isOk = false ∧
    (MockEduChain.content_generate_lesson_plan subject duration grade_level
      objectives).isOk = false ∧
    generate_mcq_content MockEduChain now topic n = _generate_fallback_mcqs now topic n ∧
    generate_lesson_plan MockEduChain now subject duration grade_level =
      _generate_fallback_lesson_plan now subject duration grade_level :=
  ⟨rfl, rfl, rfl, rfl⟩

/-- C9: in every fallback MCQ envelope, the `num_questions` field equals
the length of the `questions` list of the same envelope. -/
theorem fallback_mcqs_num_questions_self_consistent (now topic : String) (n : Int) :
    ∃ qs : List Json,
      (_generate_fallback_mcqs now topic n).getField "questions" = some (.arr qs) ∧
      (_generate_fallback_mcqs now topic n).getField "num_questions" =
        some (.int (qs.length : Int)) :=
  ⟨_, rfl, rfl⟩

/-- C10: Python slice semantics on a negative `min(num_questions, 5)`
bound: for `num_questions` in `[-5, -1]` the fallback returns exactly
`5 + num_questions` questions, and for `num_questions <= -5` it returns
none. -/
theorem fallback_mcqs_negative_num_questions (now topic : String) (n : Int) :
    (-5 ≤ n → n ≤ -1 →
      ∃ qs : List Json,
        (_generate_fallback_mcqs now topic n).getField "questions" = some (.arr qs) ∧
        (qs.length : Int) = 5 + n) ∧
    (n ≤ -5 →
      ∃ qs : List Json,
        (_generate_fallback_mcqs now topic n).getField "questions" = some (.arr qs) ∧
        qs.length = 0) := by
  constructor
  · intro h1 h2
    refine ⟨_, rfl, ?_⟩
    rw [length_pySliceUpTo, python_questions_length]
    split <;> omega
  · intro h1
    refine ⟨_, rfl, ?_⟩
    rw [length_pySliceUpTo, python_questions_length]
    split <;> omega

/-- Witness for C10 at `num_questions = -2` (three questions) and
`num_questions = -6` (no questions). -/
theorem fallback_mcqs_negative_num_questions_witness :
    (∃ qs : List Json,
      (_generate_fallback_mcqs "t" "Topic" (-2)).getField "questions" = some (.arr qs) ∧
      (qs.length : Int) = 5 + (-2)) ∧
    (∃ qs : List Json,
      (_generate_fallback_mcqs "t" "Topic" (-6)).getField "questions" = some (.arr qs) ∧
      qs.length = 0) :=
  ⟨(fallback_mcqs_negative_num_questions "t" "Topic" (-2)).1 (by decide) (by decide),
   (fallback_mcqs_negative_num_questions "t" "Topic" (-6)).2 (by decide)⟩

/-- C8: `save_content_to_file` returns normally for every envelope and
path, also when the write to the path fails: the exception is caught and
logged, never propagated. -/
theorem save_content_never_raises (fileWrite : String → String → Except String Unit)
    (content : Json) (filename : String) :
    save_content_to_file fileWrite content filename = Except.ok () := by
  unfold save_content_to_file
  cases fileWrite filename (json_dumps content) <;> rfl

/-- C6: round-trip — serializing any envelope produced by the public
generators the way `save_content_to_file` writes it (`json.dump` with
`indent=2, ensure_ascii=False`) and parsing the written JSON back yields a
structurally identical mapping, field order within objects and element
order within arrays preserved (Json equality is structural and ordered). -/
theorem envelope_json_roundtrip :
    (∀ (client : EngineClient) (now topic : String) (n : Int),
      json_loads (json_dumps (generate_mcq_content client now topic n)) =
        some (generate_mcq_content client now topic n)) ∧
    (∀ (client : EngineClient) (now subject duration grade_level : String),
      json_loads (json_dumps (generate_lesson_plan client now subject duration grade_level)) =
        some (generate_lesson_plan client now subject duration grade_level)) :=
  ⟨fun _ _ _ _ => json_loads_dumps _, fun _ _ _ _ _ => json_loads_dumps _⟩

end EduchainSetup
